import Mathlib

/-!
Shallow embedding of `src/rss.rs` (feed subscription, refresh and storage).

The SQLite connection is modelled as an explicit `DB` value threaded through
every storage operation; the network fetch (`fetch_feed`, which wraps the
HTTP get and the RSS parse) is modelled as a function parameter
`fetch : String → Except Error Channel`.  `conn.execute` failures
(I/O, constraint violation) are modelled by a fault oracle `Faults`.
A `.unwrap()` on a failed row conversion is modelled by the `panicked`
outcome.  Timestamps (`Utc::now()` / `CURRENT_TIMESTAMP`) are a `now : Nat`
parameter.
-/

/-- Error taxonomy of `crate::error::Error` as the spec describes it
(`error.rs` itself is not part of the reconciliation module source):
`FetchError` (transport), `ParseError` (malformed body), `StorageError`
(constraint violation / I/O), `NotFound` (absent id). -/
inductive Error where
  | fetchError
  | parseError
  | storageError
  | notFound
deriving DecidableEq, Repr

/-- Result of a Rust call that can also panic (a failed `.unwrap()`). -/
inductive Outcome (α : Type) where
  | ok (value : α)
  | err (e : Error)
  | panicked
deriving DecidableEq, Repr

/-- An `rss::Item` as consumed by the code: the optional fields read via
`item.title()`, `item.author()`, `item.pub_date()`, `item.description()`,
`item.content()`, `item.link()`. -/
structure RemoteItem where
  title : Option String := none
  author : Option String := none
  pub_date : Option String := none
  description : Option String := none
  content : Option String := none
  link : Option String := none
deriving DecidableEq, Repr

/-- An `rss::Channel` as consumed by the code: `feed.title()` and
`feed.link()` (both non-optional `&str` in the rss crate) and
`feed.items()`. -/
structure Channel where
  title : String
  link : String
  items : List RemoteItem
deriving DecidableEq, Repr

abbrev EntryId := Int
abbrev FeedId := Int

/-- A row of the `feeds` table (`id, title, feed_link, link, refreshed_at,
inserted_at, updated_at`). -/
structure FeedRow where
  id : FeedId
  title : Option String
  feed_link : Option String
  link : Option String
  refreshed_at : Option Nat
  inserted_at : Nat
  updated_at : Nat
deriving DecidableEq, Repr

/-- A row of the `entries` table. -/
structure EntryRow where
  id : EntryId
  feed_id : FeedId
  title : Option String
  author : Option String
  pub_date : Option String
  description : Option String
  content : Option String
  link : Option String
  read_on : Option Nat
  inserted_at : Nat
  updated_at : Nat
deriving DecidableEq, Repr

/-- The SQLite database state: the two tables plus the AUTOINCREMENT
counters that back `last_insert_rowid()`. -/
structure DB where
  feeds : List FeedRow
  entries : List EntryRow
  nextFeedId : FeedId
  nextEntryId : EntryId
deriving DecidableEq, Repr

/-- A fresh database right after `initialize_db` (SQLite rowids start at 1). -/
def emptyDB : DB := { feeds := [], entries := [], nextFeedId := 1, nextEntryId := 1 }

/-- Fault oracle for the fallible `conn.execute` calls: whether the feed
INSERT fails, whether the k-th entry INSERT fails, whether the
`refreshed_at` UPDATE fails. -/
structure Faults where
  createFails : Bool
  insertFails : Nat → Bool
  updateFails : Bool

/-- The happy path: no storage write fails. -/
def noFaults : Faults := { createFails := false, insertFails := fun _ => false, updateFails := false }

/-- `create_feed` (rss.rs:136-148): `INSERT INTO feeds (title, link, feed_link)
VALUES (feed.title(), feed.link(), feed_link)`; `refreshed_at` is left NULL,
`inserted_at`/`updated_at` default to `CURRENT_TIMESTAMP`; returns
`conn.last_insert_rowid()`. -/
def feedRowOf (feed : Channel) (feed_link : String) (id : FeedId) (now : Nat) : FeedRow :=
  { id := id
    title := some feed.title
    feed_link := some feed_link
    link := some feed.link
    refreshed_at := none
    inserted_at := now
    updated_at := now }

def create_feed (db : DB) (feed : Channel) (feed_link : String) (now : Nat)
    (fails : Bool) : DB × Except Error FeedId :=
  if fails then (db, .error .storageError)
  else
    ({ db with
        feeds := db.feeds ++ [feedRowOf feed feed_link db.nextFeedId now],
        nextFeedId := db.nextFeedId + 1 },
     .ok db.nextFeedId)

/-- The entry row written by `add_item_to_feed` (rss.rs:156-176): the seven
item fields, `updated_at := Utc::now()`, `inserted_at` defaulting to
`CURRENT_TIMESTAMP`, `read_on` left NULL. -/
def entryRowOf (feed_id : FeedId) (item : RemoteItem) (id : EntryId) (now : Nat) : EntryRow :=
  { id := id
    feed_id := feed_id
    title := item.title
    author := item.author
    pub_date := item.pub_date
    description := item.description
    content := item.content
    link := item.link
    read_on := none
    inserted_at := now
    updated_at := now }

/-- `add_item_to_feed` (rss.rs:150-180): inserts one entry row and returns
`conn.last_insert_rowid()`. -/
def add_item_to_feed (db : DB) (feed_id : FeedId) (item : RemoteItem) (now : Nat)
    (fails : Bool) : DB × Except Error EntryId :=
  if fails then (db, .error .storageError)
  else
    ({ db with
        entries := db.entries ++ [entryRowOf feed_id item db.nextEntryId now],
        nextEntryId := db.nextEntryId + 1 },
     .ok db.nextEntryId)

/-- The `for item in items { add_item_to_feed(conn, feed_id, item)? }` loops of
`subscribe_to_feed` (rss.rs:44-46) and `refresh_feed` (rss.rs:91-94): inserts
in list order, stopping at the first failing insert (the `?`), which leaves the
earlier inserts in place (no rollback).  `k` indexes insert attempts for the
fault oracle. -/
def insertItems (db : DB) (feed_id : FeedId) (items : List RemoteItem) (now : Nat)
    (fails : Nat → Bool) (k : Nat) : DB × Except Error (List EntryId) :=
  match items with
  | [] => (db, .ok [])
  | item :: rest =>
    match add_item_to_feed db feed_id item now (fails k) with
    | (db1, .error e) => (db1, .error e)
    | (db1, .ok id) =>
      match insertItems db1 feed_id rest now fails (k + 1) with
      | (db2, .error e) => (db2, .error e)
      | (db2, .ok ids) => (db2, .ok (id :: ids))

/-- `update_feed_refreshed_at` (rss.rs:202-209):
`UPDATE feeds SET refreshed_at = now WHERE id = feed_id`.  The UPDATE touches
every matching row and succeeds even when no row matches (the changed-row
count is ignored). -/
def bumpRefreshed (feed_id : FeedId) (now : Nat) (f : FeedRow) : FeedRow :=
  if f.id = feed_id then { f with refreshed_at := some now } else f

def update_feed_refreshed_at (db : DB) (feed_id : FeedId) (now : Nat)
    (fails : Bool) : DB × Except Error Unit :=
  if fails then (db, .error .storageError)
  else
    ({ db with feeds := db.feeds.map (bumpRefreshed feed_id now) }, .ok ())

/-- `get_feed_url` (rss.rs:211-219): `SELECT feed_link FROM feeds WHERE id=?1`
via `query_row`.
Modelled from the spec: the conversion of the no-row result of rusqlite into the
crate error (`crate::error::Error`, whose source is outside the
reconciliation module) — the spec says refresh "Fails with `NotFound` if
feedId unknown", so an absent id yields `NotFound`.  A NULL `feed_link`
makes `row.get(0)` into `String` fail inside `query_row`, surfacing as a
storage error through `?` (not a panic). -/
def get_feed_url (db : DB) (feed_id : FeedId) : Except Error String :=
  match db.feeds.find? (fun f => f.id == feed_id) with
  | none => .error .notFound
  | some row =>
    match row.feed_link with
    | none => .error .storageError
    | some url => .ok url

/-- `get_entries_links` (rss.rs:305-317):
`SELECT link FROM entries WHERE feed_id=?1 ORDER BY pub_date DESC`, each row
converted by `row.get(0)` into `String` and `.unwrap()`ed, collected into a
`HashSet<String>`.  A NULL link in any row of the feed makes the unwrap
panic.  The ORDER BY affects only iteration order, which the set discards;
the set is modelled as the deduplicated list of links (only membership is
ever used). -/
def get_entries_links (db : DB) (feed_id : FeedId) : Outcome (List String) :=
  let rows := db.entries.filter fun e => e.feed_id == feed_id
  if rows.all (fun e => e.link.isSome) then
    .ok ((rows.filterMap (fun e => e.link)).dedup)
  else
    .panicked

/-- `get_feed_titles` (rss.rs:221-229):
`SELECT id, title FROM feeds ORDER BY title ASC`, each row mapped to
`(row.get(0), row.get(1))` and `.unwrap()`ed into `(FeedId, String)`.
A NULL title makes the unwrap panic.  In SQLite ORDER BY with the default
BINARY collation is bytewise ascending, which on UTF-8 agrees with
`String` order; NULL titles sort before all values. -/
def feedTitleLe (a b : FeedRow) : Bool :=
  match a.title, b.title with
  | none, _ => true
  | some _, none => false
  | some x, some y => decide (x ≤ y)

def get_feed_titles (db : DB) : Outcome (List (FeedId × String)) :=
  let sorted := db.feeds.mergeSort feedTitleLe
  if sorted.all (fun f => f.title.isSome) then
    .ok (sorted.filterMap fun f => f.title.map fun t => (f.id, t))
  else
    .panicked

/-- The reconciliation computation inlined in `refresh_feed` (rss.rs:68-89):
build the `HashSet` of non-null remote links (rss.rs:68-71, modelled as a
deduplicated list), take its difference with the local links (rss.rs:74-82),
then keep every remote item whose link is in the difference, dropping items
whose link is `None` (rss.rs:86-89). -/
def reconcile (remote_items : List RemoteItem) (local_entries_links : List String) :
    List RemoteItem :=
  let remote_items_links := (remote_items.filterMap fun item => item.link).dedup
  let difference := remote_items_links.filter fun l => decide (l ∉ local_entries_links)
  remote_items.filter fun item =>
    match item.link with
    | some link => decide (link ∈ difference)
    | none => false

/-- `subscribe_to_feed` (rss.rs:37-49): fetch, `create_feed`, then insert every
item unconditionally; returns the new feed id. -/
def subscribe_to_feed (fetch : String → Except Error Channel) (faults : Faults)
    (now : Nat) (db : DB) (url : String) : DB × Outcome FeedId :=
  match fetch url with
  | .error e => (db, .err e)
  | .ok feed =>
    match create_feed db feed url now faults.createFails with
    | (db1, .error e) => (db1, .err e)
    | (db1, .ok feed_id) =>
      match insertItems db1 feed_id feed.items now faults.insertFails 0 with
      | (db2, .error e) => (db2, .err e)
      | (db2, .ok _) => (db2, .ok feed_id)

/-- `refresh_feed` (rss.rs:61-99): `get_feed_url`, fetch, `get_entries_links`,
insert the reconciled items in remote order collecting their ids, then
`update_feed_refreshed_at`; returns the inserted entry ids. -/
def refresh_feed (fetch : String → Except Error Channel) (faults : Faults)
    (now : Nat) (db : DB) (feed_id : FeedId) : DB × Outcome (List EntryId) :=
  match get_feed_url db feed_id with
  | .error e => (db, .err e)
  | .ok feed_url =>
    match fetch feed_url with
    | .error e => (db, .err e)
    | .ok remote_feed =>
      match get_entries_links db feed_id with
      | .panicked => (db, .panicked)
      | .err e => (db, .err e)
      | .ok local_entries_links =>
        match insertItems db feed_id (reconcile remote_feed.items local_entries_links)
            now faults.insertFails 0 with
        | (db1, .error e) => (db1, .err e)
        | (db1, .ok ids) =>
          match update_feed_refreshed_at db1 feed_id now faults.updateFails with
          | (db2, .error e) => (db2, .err e)
          | (db2, .ok _) => (db2, .ok ids)

/-! ### Derived descriptions of the storage effects, used to state the frame
and happy-path theorems. -/

/-- The rows appended by a run of the insert loop that never fails, starting
from AUTOINCREMENT counter `id`. -/
def insertedRows (feed_id : FeedId) (now : Nat) : List RemoteItem → EntryId → List EntryRow
  | [], _ => []
  | item :: rest, id => entryRowOf feed_id item id now :: insertedRows feed_id now rest (id + 1)

/-- The entry ids handed out by `n` consecutive successful inserts starting
at rowid `id`. -/
def idsFrom : EntryId → Nat → List EntryId
  | _, 0 => []
  | id, n + 1 => id :: idsFrom (id + 1) n

/-- A feed row with its `refreshed_at` field blanked, for stating that an
operation changes nothing of a feed but `refreshed_at`. -/
def stripRefreshed (f : FeedRow) : FeedRow := { f with refreshed_at := none }

/-! ### Concrete fixtures for scenario checks and witnesses. -/

def itemA : RemoteItem := { link := some "a" }

def itemB : RemoteItem := { link := some "b" }

def itemC : RemoteItem := { link := some "c" }

def itemX : RemoteItem := { link := some "x" }

/-- A remote item whose `link()` is `None`. -/
def itemNoLink : RemoteItem := {}

/-- A stored feed row with id 1 and feed URL "u". -/
def feedRow1 : FeedRow :=
  { id := 1, title := some "t", feed_link := some "u", link := none,
    refreshed_at := none, inserted_at := 0, updated_at := 0 }

/-- One feed (id 1, URL "u"), no entries yet. -/
def dbOneFeed : DB := { feeds := [feedRow1], entries := [], nextFeedId := 2, nextEntryId := 1 }

/-- One feed (id 1, URL "u") whose stored entries carry the links "a" and "b". -/
def dbLinksAB : DB :=
  { feeds := [feedRow1],
    entries := [entryRowOf 1 itemA 1 0, entryRowOf 1 itemB 2 0],
    nextFeedId := 2, nextEntryId := 3 }

/-- A fetch that always succeeds with the given channel. -/
def fetchOf (ch : Channel) : String → Except Error Channel := fun _ => .ok ch

/-- A fetch that always fails with a transport error. -/
def fetchDown : String → Except Error Channel := fun _ => .error .fetchError

/-- Remote channel with items linking to "a", "c" and one link-less item. -/
def chanACN : Channel := { title := "t", link := "s", items := [itemA, itemC, itemNoLink] }

/-- Remote channel with two link-less items. -/
def chanTwoNull : Channel := { title := "t", link := "s", items := [itemNoLink, itemNoLink] }

/-- Remote channel carrying the same link "x" twice. -/
def chanDupX : Channel := { title := "t", link := "s", items := [itemX, itemX] }

/-- Remote channel with two items with distinct non-null links. -/
def chanAB : Channel := { title := "t", link := "s", items := [itemA, itemB] }

/-! ### Helper lemmas. -/

theorem add_item_to_feed_feeds (db : DB) (fid : FeedId) (item : RemoteItem) (now : Nat)
    (b : Bool) : (add_item_to_feed db fid item now b).1.feeds = db.feeds := by
  unfold add_item_to_feed
  split <;> rfl

theorem add_item_to_feed_nextFeedId (db : DB) (fid : FeedId) (item : RemoteItem) (now : Nat)
    (b : Bool) : (add_item_to_feed db fid item now b).1.nextFeedId = db.nextFeedId := by
  unfold add_item_to_feed
  split <;> rfl

theorem insertItems_feeds (fid : FeedId) (now : Nat) (fails : Nat → Bool) :
    ∀ (items : List RemoteItem) (db : DB) (k : Nat),
      (insertItems db fid items now fails k).1.feeds = db.feeds := by
  intro items
  induction items with
  | nil => intro db k; rfl
  | cons item rest ih =>
    intro db k
    unfold insertItems
    rcases h1 : add_item_to_feed db fid item now (fails k) with ⟨db1, r1⟩
    have hf1 : db1.feeds = db.feeds := by
      have h := add_item_to_feed_feeds db fid item now (fails k)
      rw [h1] at h
      exact h
    cases r1 with
    | error e => simpa using hf1
    | ok id =>
      rcases h2 : insertItems db1 fid rest now fails (k + 1) with ⟨db2, r2⟩
      have hf2 : db2.feeds = db1.feeds := by
        have h := ih db1 (k + 1)
        rw [h2] at h
        exact h
      cases r2 <;> simpa [h2] using hf2.trans hf1

theorem add_item_to_feed_entries (db : DB) (fid : FeedId) (item : RemoteItem) (now : Nat)
    (b : Bool) :
    ∃ n1, (add_item_to_feed db fid item now b).1.entries = db.entries ++ n1 := by
  unfold add_item_to_feed
  split
  · exact ⟨[], by simp⟩
  · exact ⟨_, rfl⟩

theorem insertItems_entries (fid : FeedId) (now : Nat) (fails : Nat → Bool) :
    ∀ (items : List RemoteItem) (db : DB) (k : Nat),
      ∃ new, (insertItems db fid items now fails k).1.entries = db.entries ++ new := by
  intro items
  induction items with
  | nil => intro db k; exact ⟨[], by simp [insertItems]⟩
  | cons item rest ih =>
    intro db k
    unfold insertItems
    rcases h1 : add_item_to_feed db fid item now (fails k) with ⟨db1, r1⟩
    obtain ⟨n1, hn1⟩ : ∃ n1, db1.entries = db.entries ++ n1 := by
      have h := add_item_to_feed_entries db fid item now (fails k)
      rw [h1] at h
      exact h
    cases r1 with
    | error e => exact ⟨n1, by simpa using hn1⟩
    | ok id =>
      rcases h2 : insertItems db1 fid rest now fails (k + 1) with ⟨db2, r2⟩
      obtain ⟨n2, hn2⟩ : ∃ n2, db2.entries = db1.entries ++ n2 := by
        have h := ih db1 (k + 1)
        rw [h2] at h
        exact h
      cases r2 <;>
        exact ⟨n1 ++ n2, by simp [h2, hn2, hn1, List.append_assoc]⟩

theorem insertItems_noFaults (fid : FeedId) (now : Nat) :
    ∀ (items : List RemoteItem) (db : DB) (k : Nat),
      insertItems db fid items now (fun _ => false) k =
        ({ db with
            entries := db.entries ++ insertedRows fid now items db.nextEntryId,
            nextEntryId := db.nextEntryId + items.length },
         .ok (idsFrom db.nextEntryId items.length)) := by
  intro items
  induction items with
  | nil =>
    intro db k
    cases db
    simp [insertItems, insertedRows, idsFrom]
  | cons item rest ih =>
    intro db k
    unfold insertItems add_item_to_feed
    simp only [if_neg (by simp : ¬ ((fun _ => false) k = true))]
    rw [ih _ (k + 1)]
    simp [insertedRows, idsFrom, List.append_assoc]
    ring

theorem insertedRows_length (fid : FeedId) (now : Nat) :
    ∀ (items : List RemoteItem) (id : EntryId),
      (insertedRows fid now items id).length = items.length := by
  intro items
  induction items with
  | nil => intro id; rfl
  | cons item rest ih => intro id; simp [insertedRows, ih]

theorem insertedRows_feed_id (fid : FeedId) (now : Nat) :
    ∀ (items : List RemoteItem) (id : EntryId),
      ∀ e ∈ insertedRows fid now items id, e.feed_id = fid := by
  intro items
  induction items with
  | nil => intro id e he; simp [insertedRows] at he
  | cons item rest ih =>
    intro id e he
    rw [insertedRows, List.mem_cons] at he
    rcases he with he | he
    · rw [he]; rfl
    · exact ih (id + 1) e he

/-- Lines 68-89 of rss.rs in closed form: an item survives the reconciliation
filter exactly when its link is non-null and absent from the local links. -/
theorem reconcile_eq_filter (R : List RemoteItem) (L : List String) :
    reconcile R L = R.filter fun item =>
      match item.link with
      | some l => decide (l ∉ L)
      | none => false := by
  unfold reconcile
  apply List.filter_congr
  intro item hmem
  cases hlink : item.link with
  | none => rfl
  | some l =>
    simp only
    apply decide_eq_decide.mpr
    have hmemlink : l ∈ R.filterMap (fun item => item.link) :=
      List.mem_filterMap.mpr ⟨item, hmem, hlink⟩
    rw [List.mem_filter]
    simp [List.mem_dedup, hmemlink]

theorem update_feed_refreshed_at_entries (db : DB) (fid : FeedId) (now : Nat) (b : Bool) :
    (update_feed_refreshed_at db fid now b).1.entries = db.entries := by
  unfold update_feed_refreshed_at
  split <;> rfl

theorem update_feed_refreshed_at_feeds_strip (db : DB) (fid : FeedId) (now : Nat) (b : Bool) :
    (update_feed_refreshed_at db fid now b).1.feeds.map stripRefreshed =
      db.feeds.map stripRefreshed := by
  unfold update_feed_refreshed_at
  split
  · rfl
  · simp only [List.map_map]
    apply List.map_congr_left
    intro f _
    by_cases h : f.id = fid <;> simp [h, stripRefreshed, bumpRefreshed]

theorem create_feed_entries (db : DB) (ch : Channel) (fl : String) (now : Nat) (b : Bool) :
    (create_feed db ch fl now b).1.entries = db.entries := by
  unfold create_feed
  split <;> rfl

theorem create_feed_feeds_strip (db : DB) (ch : Channel) (fl : String) (now : Nat) (b : Bool) :
    ∃ nfs, (create_feed db ch fl now b).1.feeds.map stripRefreshed =
      db.feeds.map stripRefreshed ++ nfs := by
  unfold create_feed
  split
  · exact ⟨[], by simp⟩
  · exact ⟨[stripRefreshed (feedRowOf ch fl db.nextFeedId now)], by simp⟩

theorem create_feed_noFaults (db : DB) (ch : Channel) (fl : String) (now : Nat) :
    create_feed db ch fl now false =
      ({ db with
          feeds := db.feeds ++ [feedRowOf ch fl db.nextFeedId now],
          nextFeedId := db.nextFeedId + 1 },
       .ok db.nextFeedId) := rfl

theorem update_feed_refreshed_at_error_state (db : DB) (fid : FeedId) (now : Nat) (b : Bool)
    (db2 : DB) (e : Error) (h : update_feed_refreshed_at db fid now b = (db2, .error e)) :
    db2 = db := by
  unfold update_feed_refreshed_at at h
  split at h
  · rw [Prod.mk.injEq] at h
    exact h.1.symm
  · rw [Prod.mk.injEq] at h
    exact absurd h.2 (by simp)

theorem refresh_fetch_error (fetch : String → Except Error Channel) (faults : Faults)
    (now : Nat) (db : DB) (fid : FeedId) (url : String) (e : Error)
    (hurl : get_feed_url db fid = .ok url) (hf : fetch url = .error e) :
    refresh_feed fetch faults now db fid = (db, .err e) := by
  unfold refresh_feed
  rw [hurl]
  simp only [hf]

theorem refresh_err_feeds (fetch : String → Except Error Channel) (faults : Faults)
    (now : Nat) (db : DB) (fid : FeedId) (e : Error) :
    (refresh_feed fetch faults now db fid).2 = .err e →
    (refresh_feed fetch faults now db fid).1.feeds = db.feeds := by
  cases hurl : get_feed_url db fid with
  | error e1 => simp [refresh_feed, hurl]
  | ok url =>
    cases hf : fetch url with
    | error e1 => simp [refresh_feed, hurl, hf]
    | ok ch =>
      cases hl : get_entries_links db fid with
      | panicked => simp [refresh_feed, hurl, hf, hl]
      | err e1 => simp [refresh_feed, hurl, hf, hl]
      | ok links =>
        rcases hins : insertItems db fid (reconcile ch.items links) now
            faults.insertFails 0 with ⟨db1, r1⟩
        have hfeeds1 : db1.feeds = db.feeds := by
          have h := insertItems_feeds fid now faults.insertFails
            (reconcile ch.items links) db 0
          rw [hins] at h
          exact h
        cases r1 with
        | error e1 => simp [refresh_feed, hurl, hf, hl, hins, hfeeds1]
        | ok ids =>
          rcases hu : update_feed_refreshed_at db1 fid now faults.updateFails with ⟨db2, r2⟩
          cases r2 with
          | error e2 =>
            have hdb : db2 = db1 :=
              update_feed_refreshed_at_error_state db1 fid now faults.updateFails db2 e2 hu
            simp [refresh_feed, hurl, hf, hl, hins, hu, hdb, hfeeds1]
          | ok u =>
            intro h
            simp [refresh_feed, hurl, hf, hl, hins, hu] at h

theorem refresh_entries_append (fetch : String → Except Error Channel) (faults : Faults)
    (now : Nat) (db : DB) (fid : FeedId) :
    ∃ new, (refresh_feed fetch faults now db fid).1.entries = db.entries ++ new := by
  cases hurl : get_feed_url db fid with
  | error e1 => exact ⟨[], by simp [refresh_feed, hurl]⟩
  | ok url =>
    cases hf : fetch url with
    | error e1 => exact ⟨[], by simp [refresh_feed, hurl, hf]⟩
    | ok ch =>
      cases hl : get_entries_links db fid with
      | panicked => exact ⟨[], by simp [refresh_feed, hurl, hf, hl]⟩
      | err e1 => exact ⟨[], by simp [refresh_feed, hurl, hf, hl]⟩
      | ok links =>
        rcases hins : insertItems db fid (reconcile ch.items links) now
            faults.insertFails 0 with ⟨db1, r1⟩
        obtain ⟨new, hnew⟩ : ∃ new, db1.entries = db.entries ++ new := by
          have h := insertItems_entries fid now faults.insertFails
            (reconcile ch.items links) db 0
          rw [hins] at h
          exact h
        cases r1 with
        | error e1 => exact ⟨new, by simp [refresh_feed, hurl, hf, hl, hins, hnew]⟩
        | ok ids =>
          rcases hu : update_feed_refreshed_at db1 fid now faults.updateFails with ⟨db2, r2⟩
          have hent : db2.entries = db1.entries := by
            have h := update_feed_refreshed_at_entries db1 fid now faults.updateFails
            rw [hu] at h
            exact h
          cases r2 <;>
            exact ⟨new, by simp [refresh_feed, hurl, hf, hl, hins, hu, hent, hnew]⟩

theorem refresh_feeds_strip (fetch : String → Except Error Channel) (faults : Faults)
    (now : Nat) (db : DB) (fid : FeedId) :
    (refresh_feed fetch faults now db fid).1.feeds.map stripRefreshed =
      db.feeds.map stripRefreshed := by
  cases hurl : get_feed_url db fid with
  | error e1 => simp [refresh_feed, hurl]
  | ok url =>
    cases hf : fetch url with
    | error e1 => simp [refresh_feed, hurl, hf]
    | ok ch =>
      cases hl : get_entries_links db fid with
      | panicked => simp [refresh_feed, hurl, hf, hl]
      | err e1 => simp [refresh_feed, hurl, hf, hl]
      | ok links =>
        rcases hins : insertItems db fid (reconcile ch.items links) now
            faults.insertFails 0 with ⟨db1, r1⟩
        have hfeeds1 : db1.feeds = db.feeds := by
          have h := insertItems_feeds fid now faults.insertFails
            (reconcile ch.items links) db 0
          rw [hins] at h
          exact h
        cases r1 with
        | error e1 => simp [refresh_feed, hurl, hf, hl, hins, hfeeds1]
        | ok ids =>
          rcases hu : update_feed_refreshed_at db1 fid now faults.updateFails with ⟨db2, r2⟩
          have hstrip : db2.feeds.map stripRefreshed = db1.feeds.map stripRefreshed := by
            have h := update_feed_refreshed_at_feeds_strip db1 fid now faults.updateFails
            rw [hu] at h
            exact h
          cases r2 <;>
            simp [refresh_feed, hurl, hf, hl, hins, hu, hstrip, hfeeds1]

theorem subscribe_entries_append (fetch : String → Except Error Channel) (faults : Faults)
    (now : Nat) (db : DB) (url : String) :
    ∃ new, (subscribe_to_feed fetch faults now db url).1.entries = db.entries ++ new := by
  cases hf : fetch url with
  | error e1 => exact ⟨[], by simp [subscribe_to_feed, hf]⟩
  | ok ch =>
    rcases hcr : create_feed db ch url now faults.createFails with ⟨db1, r1⟩
    have hent1 : db1.entries = db.entries := by
      have h := create_feed_entries db ch url now faults.createFails
      rw [hcr] at h
      exact h
    cases r1 with
    | error e1 => exact ⟨[], by simp [subscribe_to_feed, hf, hcr, hent1]⟩
    | ok fid =>
      rcases hins : insertItems db1 fid ch.items now faults.insertFails 0 with ⟨db2, r2⟩
      obtain ⟨new, hnew⟩ : ∃ new, db2.entries = db1.entries ++ new := by
        have h := insertItems_entries fid now faults.insertFails ch.items db1 0
        rw [hins] at h
        exact h
      cases r2 <;>
        exact ⟨new, by simp [subscribe_to_feed, hf, hcr, hins, hnew, hent1]⟩

theorem subscribe_feeds_strip (fetch : String → Except Error Channel) (faults : Faults)
    (now : Nat) (db : DB) (url : String) :
    ∃ nfs, (subscribe_to_feed fetch faults now db url).1.feeds.map stripRefreshed =
      db.feeds.map stripRefreshed ++ nfs := by
  cases hf : fetch url with
  | error e1 => exact ⟨[], by simp [subscribe_to_feed, hf]⟩
  | ok ch =>
    rcases hcr : create_feed db ch url now faults.createFails with ⟨db1, r1⟩
    obtain ⟨nfs, hnfs⟩ : ∃ nfs, db1.feeds.map stripRefreshed =
        db.feeds.map stripRefreshed ++ nfs := by
      have h := create_feed_feeds_strip db ch url now faults.createFails
      rw [hcr] at h
      exact h
    cases r1 with
    | error e1 => exact ⟨nfs, by simp [subscribe_to_feed, hf, hcr, hnfs]⟩
    | ok fid =>
      rcases hins : insertItems db1 fid ch.items now faults.insertFails 0 with ⟨db2, r2⟩
      have hfeeds2 : db2.feeds = db1.feeds := by
        have h := insertItems_feeds fid now faults.insertFails ch.items db1 0
        rw [hins] at h
        exact h
      cases r2 <;>
        exact ⟨nfs, by simp [subscribe_to_feed, hf, hcr, hins, hfeeds2, hnfs]⟩

theorem feedTitleLe_trans (a b c : FeedRow) (hab : feedTitleLe a b = true)
    (hbc : feedTitleLe b c = true) : feedTitleLe a c = true := by
  unfold feedTitleLe at hab hbc ⊢
  rcases ha : a.title with _ | x
  · rfl
  · rw [ha] at hab
    rcases hb : b.title with _ | y
    · rw [hb] at hab
      simp at hab
    · rw [hb] at hab hbc
      rcases hc : c.title with _ | z
      · rw [hc] at hbc
        simp at hbc
      · rw [hc] at hbc
        simp only [decide_eq_true_eq] at hab hbc ⊢
        exact le_trans hab hbc

theorem feedTitleLe_total (a b : FeedRow) : (feedTitleLe a b || feedTitleLe b a) = true := by
  unfold feedTitleLe
  rcases ha : a.title with _ | x
  · rfl
  · rcases hb : b.title with _ | y
    · rfl
    · simp only [decide_eq_true_eq, Bool.or_eq_true]
      exact le_total x y

theorem mergeSort_all_titles (db : DB) :
    ((db.feeds.mergeSort feedTitleLe).all fun f => f.title.isSome) =
      (db.feeds.all fun f => f.title.isSome) := by
  have hperm := List.mergeSort_perm db.feeds feedTitleLe
  rw [Bool.eq_iff_iff, List.all_eq_true, List.all_eq_true]
  constructor
  · intro H f hf
    exact H f (hperm.mem_iff.mpr hf)
  · intro H f hf
    exact H f (hperm.mem_iff.mp hf)

/-- A stored feed row whose title is NULL. -/
def feedRowNullTitle : FeedRow :=
  { id := 1
    title := none
    feed_link := some "u"
    link := none
    refreshed_at := none
    inserted_at := 0
    updated_at := 0 }

/-- A database holding one feed whose title is NULL. -/
def dbNullTitle : DB :=
  { feeds := [feedRowNullTitle], entries := [], nextFeedId := 2, nextEntryId := 1 }

/-! ### Claim theorems. -/

/-- C1 counterexample: with local links ["a", "b"] and remote items
[link "a", link "c", no link], the reconciliation of rss.rs:68-89 selects
only the "c" item; the link-less item is dropped (rss.rs:88, None gives
false), so the selection is not [c-item, null-item] as the claim states. -/
theorem reconcile_scenario_drops_null_item :
    reconcile [itemA, itemC, itemNoLink] ["a", "b"] = [itemC] ∧
    reconcile [itemA, itemC, itemNoLink] ["a", "b"] ≠ [itemC, itemNoLink] :=
  ⟨by decide, by decide⟩

/-- C1 (amended): the items selected for insertion by refresh are exactly the
items of R whose link is non-null and not in L, in the original relative order
of R; items with a null link are never selected.  In the scenario with local
links ["a", "b"] and remote [a, c, null], the inserted entries are exactly the
one for "c". -/
theorem refresh_inserts_exactly_nonnull_new_links :
    (∀ (R : List RemoteItem) (L : List String),
        reconcile R L = R.filter fun item =>
          match item.link with
          | some l => decide (l ∉ L)
          | none => false) ∧
    (refresh_feed (fetchOf chanACN) noFaults 7 dbLinksAB 1).1.entries =
      dbLinksAB.entries ++ [entryRowOf 1 itemC 3 7] ∧
    (refresh_feed (fetchOf chanACN) noFaults 7 dbLinksAB 1).2 = .ok [3] :=
  ⟨reconcile_eq_filter, by decide, by decide⟩

/-- C2 counterexample: refreshing a feed against a remote list of two
link-less items inserts 0 entries, not 2. -/
theorem refresh_two_null_items_inserts_zero :
    (refresh_feed (fetchOf chanTwoNull) noFaults 1 dbOneFeed 1).1.entries.length = 0 ∧
    (refresh_feed (fetchOf chanTwoNull) noFaults 1 dbOneFeed 1).1.entries.length ≠ 2 :=
  ⟨by decide, by decide⟩

/-- C2 (amended): a remote item with a null link is never classified as new by
refresh: every item selected by the reconciliation has a non-null link, and the
two-null-item feed refreshed twice inserts 0 entries each time (0 total). -/
theorem reconcile_selects_only_nonnull_links :
    (∀ (R : List RemoteItem) (L : List String),
        (reconcile R L).all (fun item => item.link.isSome) = true) ∧
    (refresh_feed (fetchOf chanTwoNull) noFaults 1 dbOneFeed 1).2 = .ok [] ∧
    (refresh_feed (fetchOf chanTwoNull) noFaults 2
        (refresh_feed (fetchOf chanTwoNull) noFaults 1 dbOneFeed 1).1 1).2 = .ok [] ∧
    (refresh_feed (fetchOf chanTwoNull) noFaults 2
        (refresh_feed (fetchOf chanTwoNull) noFaults 1 dbOneFeed 1).1 1).1.entries.length
      = 0 := by
  refine ⟨?_, by decide, by decide, by decide⟩
  intro R L
  rw [reconcile_eq_filter, List.all_eq_true]
  intro item hmem
  have hp := (List.mem_filter.mp hmem).2
  cases hlink : item.link with
  | none =>
    rw [hlink] at hp
    simp at hp
  | some l => rfl

/-- C3: if the target feed has a stored entry with a NULL link (a state
reachable by subscribing to a feed containing a link-less item), and the feed
id resolves to a URL whose fetch succeeds, refresh panics — the unwrap in
get_entries_links on the failed NULL-to-String conversion — instead of
returning an error value. -/
theorem refresh_panics_on_stored_null_link
    (fetch : String → Except Error Channel) (faults : Faults) (now : Nat)
    (db : DB) (fid : FeedId) (url : String) (ch : Channel) (entry : EntryRow)
    (hurl : get_feed_url db fid = .ok url)
    (hfetch : fetch url = .ok ch)
    (hmem : entry ∈ db.entries) (hfid : entry.feed_id = fid)
    (hlink : entry.link = none) :
    refresh_feed fetch faults now db fid = (db, .panicked) := by
  have hall : (db.entries.filter fun e => e.feed_id == fid).all
      (fun e => e.link.isSome) = false :=
    List.all_eq_false.mpr
      ⟨entry, List.mem_filter.mpr ⟨hmem, by simp [hfid]⟩, by simp [hlink]⟩
  have hpanic : get_entries_links db fid = .panicked := by
    simp [get_entries_links, hall]
  simp [refresh_feed, hurl, hfetch, hpanic]

/-- C3 witness: subscribing an empty store to a feed with link-less items and
then refreshing that feed panics. -/
theorem refresh_panics_on_stored_null_link_witness :
    refresh_feed (fetchOf chanTwoNull) noFaults 5
      (subscribe_to_feed (fetchOf chanTwoNull) noFaults 0 emptyDB "u").1 1 =
      ((subscribe_to_feed (fetchOf chanTwoNull) noFaults 0 emptyDB "u").1, .panicked) :=
  refresh_panics_on_stored_null_link (fetchOf chanTwoNull) noFaults 5
    (subscribe_to_feed (fetchOf chanTwoNull) noFaults 0 emptyDB "u").1 1 "u" chanTwoNull
    (entryRowOf 1 itemNoLink 1 0) rfl rfl (by decide) rfl rfl

/-- C4 counterexample: with an empty local set and a remote list carrying the
link "x" twice, refresh inserts two entries with link "x", not one. -/
theorem refresh_duplicate_link_inserts_two_entries :
    ((refresh_feed (fetchOf chanDupX) noFaults 1 dbOneFeed 1).1.entries.filter
      (fun e => e.link == some "x")).length = 2 ∧
    ((refresh_feed (fetchOf chanDupX) noFaults 1 dbOneFeed 1).1.entries.filter
      (fun e => e.link == some "x")).length ≠ 1 :=
  ⟨by decide, by decide⟩

/-- C4 (amended): duplicate links do collapse to one member of the remote link
set (rss.rs:68-71), but the filter at rss.rs:86-89 keeps every remote
occurrence of a link in the difference, so for a new link one entry is
inserted per occurrence, not one per distinct link. -/
theorem duplicate_links_collapse_in_set_but_insert_per_occurrence
    (R : List RemoteItem) (L : List String) (x : String) (hx : x ∉ L) :
    ((R.filterMap fun item => item.link).dedup).count x ≤ 1 ∧
    (reconcile R L).countP (fun item => item.link == some x) =
      R.countP (fun item => item.link == some x) := by
  constructor
  · exact List.nodup_iff_count_le_one.mp (List.nodup_dedup _) x
  · rw [reconcile_eq_filter, List.countP_filter]
    apply List.countP_congr
    intro item hmem
    cases hlink : item.link with
    | none => simp [hlink]
    | some l =>
      by_cases hl : l = x
      · subst hl
        simp [hlink, hx]
      · simp [hlink, hl]

/-- C4 witness: the duplicated-link channel at x with an empty local set. -/
theorem duplicate_links_witness :
    ((([itemX, itemX] : List RemoteItem).filterMap fun item => item.link).dedup).count "x"
        ≤ 1 ∧
    (reconcile [itemX, itemX] []).countP (fun item => item.link == some "x") =
      ([itemX, itemX] : List RemoteItem).countP (fun item => item.link == some "x") :=
  duplicate_links_collapse_in_set_but_insert_per_occurrence [itemX, itemX] [] "x"
    (by decide)

/-- C5: if the feed id resolves but the remote fetch fails, refresh returns
that error with the database completely unchanged; and whenever refresh
returns any error — in particular when an entry insert fails — the
refreshed_at of every feed is unchanged, because the timestamp update runs
only after all selected inserts have succeeded. -/
theorem refresh_atomic_fetch_failure_ordered_writes
    (fetch : String → Except Error Channel) (faults : Faults) (now : Nat)
    (db : DB) (fid : FeedId) :
    (∀ url e, get_feed_url db fid = .ok url → fetch url = .error e →
        refresh_feed fetch faults now db fid = (db, .err e)) ∧
    (∀ e, (refresh_feed fetch faults now db fid).2 = .err e →
        (refresh_feed fetch faults now db fid).1.feeds.map (fun f => f.refreshed_at) =
          db.feeds.map fun f => f.refreshed_at) :=
  ⟨fun url e hurl hf => refresh_fetch_error fetch faults now db fid url e hurl hf,
   fun e h => by rw [refresh_err_feeds fetch faults now db fid e h]⟩

/-- C5 witness: a transport failure leaves the one-feed store untouched. -/
theorem refresh_atomic_witness :
    refresh_feed fetchDown noFaults 3 dbOneFeed 1 = (dbOneFeed, .err .fetchError) ∧
    (refresh_feed fetchDown noFaults 3 dbOneFeed 1).1.feeds.map (fun f => f.refreshed_at) =
      dbOneFeed.feeds.map (fun f => f.refreshed_at) :=
  ⟨(refresh_atomic_fetch_failure_ordered_writes fetchDown noFaults 3 dbOneFeed 1).1
      "u" .fetchError rfl rfl,
   (refresh_atomic_fetch_failure_ordered_writes fetchDown noFaults 3 dbOneFeed 1).2
      .fetchError rfl⟩

/-- C6: refreshing a feed id for which no feed record is stored fails with
NotFound and performs no storage mutation. -/
theorem refresh_unknown_feed_not_found
    (fetch : String → Except Error Channel) (faults : Faults) (now : Nat)
    (db : DB) (fid : FeedId) (habsent : ∀ f ∈ db.feeds, f.id ≠ fid) :
    refresh_feed fetch faults now db fid = (db, .err .notFound) := by
  have hurl : get_feed_url db fid = .error .notFound := by
    have hfind : db.feeds.find? (fun f => f.id == fid) = none :=
      List.find?_eq_none.mpr fun f hf => by simpa using habsent f hf
    simp [get_feed_url, hfind]
  simp [refresh_feed, hurl]

/-- C6 witness: refreshing id 1 against an empty store fails with NotFound. -/
theorem refresh_unknown_feed_witness :
    refresh_feed fetchDown noFaults 0 emptyDB 1 = (emptyDB, .err .notFound) :=
  refresh_unknown_feed_not_found fetchDown noFaults 0 emptyDB 1 (by simp [emptyDB])

/-- C7: subscribe inserts every remote item unconditionally, with no
reconciliation, and returns the id of the newly created feed: a successful
fetch of N items with distinct non-null links and no storage fault appends
exactly N entries, all owned by the returned feed id. -/
theorem subscribe_inserts_all_items
    (fetch : String → Except Error Channel) (now : Nat) (db : DB) (url : String)
    (ch : Channel) (hfetch : fetch url = .ok ch)
    (hlinks : ∀ i ∈ ch.items, i.link.isSome)
    (hnodup : (ch.items.map fun i => i.link).Nodup) :
    (subscribe_to_feed fetch noFaults now db url).2 = .ok db.nextFeedId ∧
    ∃ new, (subscribe_to_feed fetch noFaults now db url).1.entries = db.entries ++ new ∧
      new.length = ch.items.length ∧
      ∀ e ∈ new, e.feed_id = db.nextFeedId := by
  constructor
  · simp [subscribe_to_feed, hfetch, noFaults, create_feed_noFaults, insertItems_noFaults]
  · refine ⟨insertedRows db.nextFeedId now ch.items db.nextEntryId, ?_,
      insertedRows_length db.nextFeedId now ch.items db.nextEntryId,
      insertedRows_feed_id db.nextFeedId now ch.items db.nextEntryId⟩
    simp [subscribe_to_feed, hfetch, noFaults, create_feed_noFaults, insertItems_noFaults]

/-- C7 witness: subscribing an empty store to a two-item feed with distinct
links "a" and "b". -/
theorem subscribe_inserts_all_items_witness :
    (subscribe_to_feed (fetchOf chanAB) noFaults 0 emptyDB "u").2 = .ok emptyDB.nextFeedId ∧
    ∃ new, (subscribe_to_feed (fetchOf chanAB) noFaults 0 emptyDB "u").1.entries =
        emptyDB.entries ++ new ∧
      new.length = chanAB.items.length ∧
      ∀ e ∈ new, e.feed_id = emptyDB.nextFeedId :=
  subscribe_inserts_all_items (fetchOf chanAB) 0 emptyDB "u" chanAB rfl
    (by decide) (by decide)

/-- C8 counterexample: updating refreshed_at for a feed id that is not stored
returns success with the store unchanged — the UPDATE matches no row and the
changed-row count is ignored — rather than failing with NotFound. -/
theorem update_refreshed_at_absent_feed_succeeds :
    update_feed_refreshed_at emptyDB 1 5 false = (emptyDB, .ok ()) ∧
    (update_feed_refreshed_at emptyDB 1 5 false).2 ≠ .error .notFound :=
  ⟨rfl, fun h => Except.noConfusion h⟩

/-- C8 (amended): update_feed_refreshed_at sets refreshed_at of every stored
feed row carrying the given id and succeeds; when no feed with that id exists
it succeeds as a silent no-op instead of failing with NotFound. -/
theorem update_refreshed_at_sets_timestamp_silent_on_absent
    (db : DB) (fid : FeedId) (now : Nat) :
    (update_feed_refreshed_at db fid now false).2 = .ok () ∧
    (∀ f ∈ db.feeds, f.id = fid →
        { f with refreshed_at := some now } ∈
          (update_feed_refreshed_at db fid now false).1.feeds) ∧
    ((∀ f ∈ db.feeds, f.id ≠ fid) → (update_feed_refreshed_at db fid now false).1 = db) := by
  refine ⟨rfl, ?_, ?_⟩
  · intro f hf hid
    simp only [update_feed_refreshed_at, Bool.false_eq_true, if_false]
    exact List.mem_map.mpr ⟨f, hf, by simp [bumpRefreshed, hid]⟩
  · intro habs
    have hmap : db.feeds.map (bumpRefreshed fid now) = db.feeds := by
      conv_rhs => rw [← List.map_id db.feeds]
      apply List.map_congr_left
      intro f hf
      simp [bumpRefreshed, habs f hf]
    have hred : (update_feed_refreshed_at db fid now false).1 =
        { db with feeds := db.feeds.map (bumpRefreshed fid now) } := rfl
    rw [hred, hmap]

/-- C8 witness: setting the timestamp of the stored feed 1, and the no-op on
an empty store. -/
theorem update_refreshed_at_witness :
    ({ feedRow1 with refreshed_at := some 5 } ∈
      (update_feed_refreshed_at dbOneFeed 1 5 false).1.feeds) ∧
    (update_feed_refreshed_at emptyDB 2 5 false).1 = emptyDB :=
  ⟨(update_refreshed_at_sets_timestamp_silent_on_absent dbOneFeed 1 5).2.1 feedRow1
      (by decide) rfl,
   (update_refreshed_at_sets_timestamp_silent_on_absent emptyDB 2 5).2.2
      (by simp [emptyDB])⟩

/-- C9: the store is append-only and feed records are frame-stable: subscribe
and refresh (under any fetch result and any storage-fault pattern) only ever
append entries, never deleting or modifying one, and with refreshed_at blanked
the feed rows are preserved — subscribe may append a feed row and refresh
changes no feed field other than refreshed_at, so feed_link never changes. -/
theorem store_append_only_feed_frame
    (fetch : String → Except Error Channel) (faults : Faults) (now : Nat)
    (db : DB) (url : String) (fid : FeedId) :
    ((∃ newE, (subscribe_to_feed fetch faults now db url).1.entries =
        db.entries ++ newE) ∧
      ∃ newF, (subscribe_to_feed fetch faults now db url).1.feeds.map stripRefreshed =
        db.feeds.map stripRefreshed ++ newF) ∧
    (∃ newE, (refresh_feed fetch faults now db fid).1.entries = db.entries ++ newE) ∧
    (refresh_feed fetch faults now db fid).1.feeds.map stripRefreshed =
      db.feeds.map stripRefreshed :=
  ⟨⟨subscribe_entries_append fetch faults now db url,
    subscribe_feeds_strip fetch faults now db url⟩,
   refresh_entries_append fetch faults now db fid,
   refresh_feeds_strip fetch faults now db fid⟩

/-- C10: get_feed_titles panics on a storage state holding a feed with a NULL
title (the unwrap of the row conversion), and under the precondition that
every stored feed has a title it returns all (id, title) pairs sorted
ascending by title. -/
theorem get_feed_titles_panics_on_null_title_else_sorted :
    get_feed_titles dbNullTitle = .panicked ∧
    ∀ db : DB, (∀ f ∈ db.feeds, f.title.isSome) →
      ∃ ps, get_feed_titles db = .ok ps ∧
        ps.Pairwise (fun p q => p.2 ≤ q.2) ∧
        ps.Perm (db.feeds.filterMap fun f => f.title.map fun t => (f.id, t)) := by
  constructor
  · have hfalse : (dbNullTitle.feeds.mergeSort feedTitleLe).all
        (fun f => f.title.isSome) = false := by
      rw [mergeSort_all_titles]
      decide
    simp [get_feed_titles, hfalse]
  · intro db hall
    have halltrue : (db.feeds.mergeSort feedTitleLe).all
        (fun f => f.title.isSome) = true := by
      rw [mergeSort_all_titles, List.all_eq_true]
      exact hall
    refine ⟨(db.feeds.mergeSort feedTitleLe).filterMap
        (fun f => f.title.map fun t => (f.id, t)), ?_, ?_, ?_⟩
    · simp [get_feed_titles, halltrue]
    · rw [List.pairwise_filterMap]
      have hsorted := List.sorted_mergeSort feedTitleLe_trans feedTitleLe_total db.feeds
      refine hsorted.imp ?_
      intro a b hab p hp q hq
      rcases hta : a.title with _ | ta
      · rw [hta] at hp
        simp at hp
      · rcases htb : b.title with _ | tb
        · rw [htb] at hq
          simp at hq
        · rw [hta] at hp
          rw [htb] at hq
          simp at hp hq
          subst hp
          subst hq
          simp only [feedTitleLe, hta, htb, decide_eq_true_eq] at hab
          exact hab
    · exact (List.mergeSort_perm db.feeds feedTitleLe).filterMap _

/-- C10 witness: the one-feed store with a present title. -/
theorem get_feed_titles_witness :
    ∃ ps, get_feed_titles dbOneFeed = .ok ps ∧
      ps.Pairwise (fun p q => p.2 ≤ q.2) ∧
      ps.Perm (dbOneFeed.feeds.filterMap fun f => f.title.map fun t => (f.id, t)) :=
  get_feed_titles_panics_on_null_title_else_sorted.2 dbOneFeed (by decide)
